import Mathlib

/-!
# Verification of the media-helper acquisition and compression pipeline

Shallow embedding of the repository's media pipeline:

* `src/app/media_types.py`     — `MediaType`, `MediaItem.from_bytes`
* `src/app/temp_manager.py`    — `TempManager.cleanup_user_temp_dir`
* `src/app/video_processor.py` — `VideoProcessor.compress_video`,
  `VideoProcessor._compress_video_pass`
* `src/app/bot.py`             — `VideoDownloadBot._process_download`,
  `_handle_download`, `_send_media_items`, `_process_media`

Bytes are modelled as `List Nat`, one element per byte.  Python compares
sizes as `len(data) / (1024 * 1024)` in IEEE double arithmetic; every
integer below `2^53` is exact in a double and division by the constant
`2^20` only shifts the exponent, so `len/2^20 > mb` holds exactly iff
`mb * 2^20 < len` over the integers.  All size comparisons are therefore
embedded as exact natural-number comparisons.

External effects (ffmpeg/ffprobe subprocesses, the filesystem, the
Telegram client) are modelled as oracles supplied to the functions, and
the observable actions (semaphore operations, scratch-directory
lifecycle, subprocess invocations, status-message edits, message sends)
are recorded in an event trace returned alongside each result.
`Except Unit` threads the one kind of exception that escapes the
pipeline's internal handlers (task cancellation, which Python's
`except Exception` does not catch); `.error ()` therefore marks an
abandoned computation whose `finally` blocks have still run.
-/

/-- `len/2^20 > mb` for a byte count `len` and a whole-megabyte limit
`mb`, computed exactly (see header note on float exactness). -/
def mbExceeds (len mb : Nat) : Bool := mb * 1048576 < len

/-- `media_types.MediaType`. -/
inductive MediaType where
  | video
  | photo
  | audio
deriving DecidableEq, Repr

/-- `media_types.MediaItem`: `size_mb` is derived (`len(data)/2^20`) and is
represented by `data.length` wherever the source reads `size_mb`. -/
structure MediaItem where
  data : List Nat
  media_type : MediaType
  caption : Option String
deriving DecidableEq, Repr

/-- `media_types.MediaItem.from_bytes`. -/
def MediaItem.from_bytes (data : List Nat) (media_type : MediaType)
    (caption : Option String) : MediaItem :=
  ⟨data, media_type, caption⟩

/-- `media_types.DownloadResult`. -/
structure DownloadResult where
  data : List Nat
  media_type : MediaType
  caption : Option String
deriving DecidableEq, Repr

/-- The three compression profiles of `compress_video`
(`config.CompressionConfig` profile field groups). -/
inductive PassKind where
  | defaultPass
  | firstPass
  | secondPass
deriving DecidableEq, Repr

/-- `config.CompressionConfig` with the defaults of `config.py`
(every field is overridable from the environment, so theorems quantify
over it unless stated otherwise). -/
structure CompressionConfig where
  default_compress_threshold_mb : Nat := 10
  max_telegram_size_mb : Nat := 45
  max_compress_size_mb : Nat := 200
  default_crf : Nat := 23
  default_scale : Nat := 1280
  default_preset : String := "veryfast"
  default_audio_bitrate : Nat := 96
  first_pass_crf : Nat := 28
  first_pass_scale : Nat := 1080
  first_pass_preset : String := "fast"
  first_pass_audio_bitrate : Nat := 128
  second_pass_crf : Nat := 32
  second_pass_scale : Nat := 720
  second_pass_preset : String := "faster"
  second_pass_audio_bitrate : Nat := 96

/-- `config.Config`, restricted to the fields the pipeline reads. -/
structure Config where
  download_timeout : Nat := 90
  max_concurrent_downloads : Nat := 20
  max_downloads_per_user : Nat := 3
  compression : CompressionConfig := {}

/-- Profile accessors: which `CompressionConfig` fields each pass of
`compress_video` passes to `_compress_video_pass`. -/
def CompressionConfig.crfOf (c : CompressionConfig) : PassKind → Nat
  | .defaultPass => c.default_crf
  | .firstPass => c.first_pass_crf
  | .secondPass => c.second_pass_crf

def CompressionConfig.scaleOf (c : CompressionConfig) : PassKind → Nat
  | .defaultPass => c.default_scale
  | .firstPass => c.first_pass_scale
  | .secondPass => c.second_pass_scale

def CompressionConfig.presetOf (c : CompressionConfig) : PassKind → String
  | .defaultPass => c.default_preset
  | .firstPass => c.first_pass_preset
  | .secondPass => c.second_pass_preset

def CompressionConfig.audioOf (c : CompressionConfig) : PassKind → Nat
  | .defaultPass => c.default_audio_bitrate
  | .firstPass => c.first_pass_audio_bitrate
  | .secondPass => c.second_pass_audio_bitrate

/-- The scratch-file path `compress_video` gives a pass as its input
(`input.mp4` for the default and first passes, the first pass's output
file `compressed.mp4` for the second pass). -/
def passInputPath : PassKind → String
  | .secondPass => "compressed.mp4"
  | _ => "input.mp4"

/-- The output path `compress_video` gives a pass. -/
def passOutputPath : PassKind → String
  | .secondPass => "compressed_2.mp4"
  | _ => "compressed.mp4"

/-- User-visible status-message texts of `bot.py`, by rôle. -/
inductive MsgKind where
  | queued
  | unsupported
  | fetchFailed
  | processing
  | timedOut
  | genericError
  | tooLarge
  | compressing (big : Bool)
  | compressFailed
  | compressionInsufficient
  | compressDone
deriving DecidableEq, Repr

/-- Observable actions of the pipeline, recorded in traces. -/
inductive Event where
  | acquireUser (u : Nat)
  | releaseUser (u : Nat)
  | acquireGlobal
  | releaseGlobal
  | acquireFfmpeg
  | releaseFfmpeg
  | createDir (u : Nat)
  | cleanupDir (u : Nat)
  | passRun (k : PassKind)
  | probeRun
  | ffmpegInvoke (cmd : List String)
  | sendStatus (m : MsgKind)
  | editStatus (m : MsgKind)
  | deleteStatus
  | replyMediaGroup (n : Nat)
  | replyAudio
deriving DecidableEq, Repr

/-- Outcome of one `_compress_video_pass` call as seen by
`compress_video`: encoded bytes, failure (`None`), or a task
cancellation raised at the `await`. -/
inductive PassResult where
  | out (b : List Nat)
  | fail
  | cancel
deriving DecidableEq, Repr

/-- Environment oracle for `compress_video`: what each
`_compress_video_pass` invocation produces for a given input file's
bytes, and whether writing `input.mp4` raises. -/
structure PassOracle where
  pass : PassKind → List Nat → PassResult
  writeRaises : Bool := false

/-- `video_processor.py` lines 79-101: the `default` profile attempt of
`compress_video` (guarded by `initial_size_mb <= max_size_mb`), run
under the ffmpeg semaphore.  `.ok (some o)` is the early
`return compressed_data` at line 99, `.ok none` falls through. -/
def compress_default_stage (orc : PassOracle) (video_data : List Nat)
    (max_size_mb : Nat) : List Event × Except Unit (Option (List Nat)) :=
  if ¬ mbExceeds video_data.length max_size_mb then
    match orc.pass .defaultPass video_data with
    | .cancel =>
        ([.acquireFfmpeg, .passRun .defaultPass, .releaseFfmpeg], .error ())
    | .fail =>
        ([.acquireFfmpeg, .passRun .defaultPass, .releaseFfmpeg], .ok none)
    | .out o =>
        ([.acquireFfmpeg, .passRun .defaultPass, .releaseFfmpeg],
          .ok (if o.length < video_data.length ∧
                 ¬ mbExceeds o.length max_size_mb then some o else none))
  else ([], .ok none)

/-- `video_processor.py` lines 105-129: the `first_pass` attempt
(guarded by `initial_size_mb > max_size_mb`), chaining a `second_pass`
on the first pass's output when that output still exceeds
`max_size_mb`.  Both passes happen inside one ffmpeg-semaphore scope.
Whatever the passes produce, control falls through to line 131's
`return video_data`, so the stage's normal result is always the
original `video_data`. -/
def compress_first_stage (orc : PassOracle) (video_data : List Nat)
    (max_size_mb : Nat) : List Event × Except Unit (List Nat) :=
  if mbExceeds video_data.length max_size_mb then
    match orc.pass .firstPass video_data with
    | .cancel =>
        ([.acquireFfmpeg, .passRun .firstPass, .releaseFfmpeg], .error ())
    | .fail =>
        ([.acquireFfmpeg, .passRun .firstPass, .releaseFfmpeg],
          .ok video_data)
    | .out o1 =>
        if mbExceeds o1.length max_size_mb then
          match orc.pass .secondPass o1 with
          | .cancel =>
              ([.acquireFfmpeg, .passRun .firstPass, .passRun .secondPass,
                .releaseFfmpeg], .error ())
          | _ =>
              ([.acquireFfmpeg, .passRun .firstPass, .passRun .secondPass,
                .releaseFfmpeg], .ok video_data)
        else
          ([.acquireFfmpeg, .passRun .firstPass, .releaseFfmpeg],
            .ok video_data)
  else ([], .ok video_data)

/-- The `try` body of `compress_video` (video_processor.py lines
68-131): write the input file, attempt the default stage (possibly
returning early), attempt the first/second-pass stage, and otherwise
fall through to `return video_data`. -/
def compress_video_body (cfg : CompressionConfig) (orc : PassOracle)
    (video_data : List Nat) (max_size_mb : Nat) (force_compress : Bool) :
    List Event × Except Unit (List Nat) :=
  if orc.writeRaises then ([], .error ())
  else if mbExceeds video_data.length cfg.default_compress_threshold_mb
          || force_compress then
    match compress_default_stage orc video_data max_size_mb with
    | (e1, .error u) => (e1, .error u)
    | (e1, .ok (some o)) => (e1, .ok o)
    | (e1, .ok none) =>
      match compress_first_stage orc video_data max_size_mb with
      | (e2, r) => (e1 ++ e2, r)
  else ([], .ok video_data)

/-- `VideoProcessor.compress_video` (video_processor.py lines 58-135).
The scratch directory is created first and the `finally` block cleans
it up on every exit path, so the trace is always bracketed by
`createDir`/`cleanupDir`. -/
def compress_video (cfg : CompressionConfig) (orc : PassOracle)
    (video_data : List Nat) (max_size_mb : Nat) (user_id : Nat)
    (force_compress : Bool) : List Event × Except Unit (List Nat) :=
  let body := compress_video_body cfg orc video_data max_size_mb
      force_compress
  (Event.createDir user_id :: body.1 ++ [Event.cleanupDir user_id], body.2)

/-- `TempManager.cleanup_user_temp_dir` (temp_manager.py lines 22-28):
`dirExists` models `temp_dir.exists()` and `rmtreeResult` models
`shutil.rmtree`, whose exception the `except` clause swallows
(logging only). -/
def cleanup_user_temp_dir (dirExists : Bool)
    (rmtreeResult : Except String Unit) : Except String Unit :=
  match (if dirExists then rmtreeResult else .ok ()) with
  | .ok _ => .ok ()
  | .error _ => .ok ()

/-- What `_compress_video_pass`'s ffprobe step yields, classified by how
the dimension-extraction `try` block at video_processor.py lines
171-186 behaves:

* `malformed`       — `json.loads` (or the extraction) raises; the inner
  `except` assigns `should_scale = True`;
* `parsedNoStreams` — the JSON parses but has no non-empty `streams`
  entry, so the `if` body is skipped and `should_scale` is never
  assigned;
* `parsedStream w h` — a first stream is present; `w`/`h` are its
  `width`/`height` values after the `.get(_, 0)` defaulting. -/
inductive ProbeOutcome where
  | malformed
  | parsedNoStreams
  | parsedStream (width height : Nat)
deriving DecidableEq, Repr

/-- The value of the local `should_scale` after the probe-parsing
`try`/`except` of `_compress_video_pass` (lines 168-186): `none` means
the variable was never assigned, so the later `if should_scale:` at
line 203 raises `UnboundLocalError`.  The Python truthiness test
`width and height and width <= scale` compares the *width* against the
target scale; the height never takes part in the decision. -/
def shouldScaleAfterProbe (scale : Nat) : ProbeOutcome → Option Bool
  | .malformed => some true
  | .parsedNoStreams => none
  | .parsedStream w h =>
      some (if 0 < w ∧ 0 < h ∧ w ≤ scale then false else true)

/-- `thread_count` of `_compress_video_pass` line 150, from
`os.cpu_count() or 4`. -/
def threadCountOf (cpuCount : Nat) : Nat := max 1 (min (cpuCount - 1) 8)

/-- The Lanczos downscale filter argument, `f"scale={scale}:-2:flags=lanczos"`
(the `-2` keeps the computed height even, as common codecs require). -/
def scaleFilter (scale : Nat) : String :=
  "scale=" ++ toString scale ++ ":-2:flags=lanczos"

/-- The exact argument vector `_compress_video_pass` hands to ffmpeg
(video_processor.py lines 189-215). -/
def buildCompressCmd (inputPath outputPath : String) (crf scale : Nat)
    (preset : String) (audio_bitrate : Nat) (tc : Nat)
    (should_scale : Bool) : List String :=
  ["ffmpeg", "-y",
   "-thread_queue_size", toString (tc * 2),
   "-i", inputPath,
   "-c:v", "libx264",
   "-preset", preset,
   "-crf", toString crf,
   "-threads", toString tc,
   "-filter_threads", toString tc,
   "-filter_complex_threads", toString tc]
  ++ (if should_scale then ["-vf", scaleFilter scale] else [])
  ++ ["-c:a", "aac",
      "-b:a", toString audio_bitrate ++ "k",
      "-ac", "2",
      "-ar", "44100",
      "-max_muxing_queue_size", "9999",
      "-movflags", "+faststart",
      outputPath]

/-- Result of one ffmpeg subprocess run: exit code, whether the output
file exists afterwards, and its bytes. -/
structure RunOutcome where
  exitCode : Nat
  outputExists : Bool
  outputBytes : List Nat

/-- `VideoProcessor._compress_video_pass` (video_processor.py lines
137-238).  When `should_scale` was never assigned, the
`UnboundLocalError` raised at line 203 is caught by the function's
outer `except Exception` (line 236), which returns `None`: ffmpeg is
never invoked.  Otherwise the command is built and run; a non-zero
exit code or a missing output file also yields `None`. -/
def compressVideoPass (crf scale : Nat) (preset : String)
    (audio_bitrate : Nat) (cpuCount : Nat) (inputPath outputPath : String)
    (probe : ProbeOutcome) (run : List String → RunOutcome) :
    List Event × Option (List Nat) :=
  let tc := threadCountOf cpuCount
  match shouldScaleAfterProbe scale probe with
  | none => ([Event.probeRun], none)
  | some sc =>
    let cmd := buildCompressCmd inputPath outputPath crf scale preset
        audio_bitrate tc sc
    let r := run cmd
    ([Event.probeRun, Event.ffmpegInvoke cmd],
      if r.exitCode ≠ 0 then none
      else if r.outputExists = false then none
      else some r.outputBytes)

/-- The ffmpeg command vectors recorded in a trace. -/
def invokedCmds (tr : List Event) : List (List String) :=
  tr.filterMap fun e =>
    match e with
    | .ffmpegInvoke c => some c
    | _ => none

/-- `VideoDownloadBot._process_media` (bot.py lines 381-447).  Photos
and audio pass through; a video over `max_compress_size_mb` is
rejected with the too-large message before any transcoding; otherwise
compression runs when the size exceeds the threshold or the Telegram
limit, and the result is accepted only when non-falsy, within the
Telegram limit, and strictly smaller than the input (`.ok none` means
the item is dropped). -/
def process_media (cfg : CompressionConfig) (orc : PassOracle)
    (item : MediaItem) (user_id : Nat) :
    List Event × Except Unit (Option (List Nat)) :=
  match item.media_type with
  | .photo => ([], .ok (some item.data))
  | .audio => ([], .ok (some item.data))
  | .video =>
    if mbExceeds item.data.length cfg.max_compress_size_mb then
      ([.editStatus .tooLarge], .ok none)
    else if mbExceeds item.data.length cfg.default_compress_threshold_mb
            || mbExceeds item.data.length cfg.max_telegram_size_mb then
      -- the `compression_msg` text depends on whether
      -- `size_mb > MAX_TELEGRAM_SIZE_MB`, and `force_compress` is
      -- `size_mb > default_compress_threshold_mb`
      match compress_video cfg orc item.data cfg.max_telegram_size_mb
          user_id (mbExceeds item.data.length cfg.default_compress_threshold_mb) with
      | (t, .error u) =>
          (Event.editStatus
             (.compressing (mbExceeds item.data.length cfg.max_telegram_size_mb)) :: t,
           .error u)
      | (t, .ok cd) =>
        if cd.isEmpty then
          (Event.editStatus
             (.compressing (mbExceeds item.data.length cfg.max_telegram_size_mb)) :: t
            ++ [.editStatus .compressFailed], .ok none)
        else if mbExceeds cd.length cfg.max_telegram_size_mb then
          (Event.editStatus
             (.compressing (mbExceeds item.data.length cfg.max_telegram_size_mb)) :: t
            ++ [.editStatus .compressionInsufficient], .ok none)
        else if cd.length < item.data.length then
          (Event.editStatus
             (.compressing (mbExceeds item.data.length cfg.max_telegram_size_mb)) :: t
            ++ [.editStatus .compressDone], .ok (some cd))
        else
          (Event.editStatus
             (.compressing (mbExceeds item.data.length cfg.max_telegram_size_mb)) :: t,
           .ok (some item.data))
    else ([], .ok (some item.data))

/-- The item-processing loop of `_send_media_items` (bot.py lines
350-363): items whose processing yields nothing are skipped, audio
goes to one batch and photos/videos to the other, in order. -/
def send_media_loop (cfg : CompressionConfig) (orc : PassOracle)
    (user_id : Nat) :
    List MediaItem →
    List Event ×
      Except Unit
        (List (List Nat × Option String) × List (List Nat × Option String))
  | [] => ([], .ok ([], []))
  | item :: rest =>
    match process_media cfg orc item user_id with
    | (t, .error u) => (t, .error u)
    | (t, .ok none) =>
      match send_media_loop cfg orc user_id rest with
      | (t2, r2) => (t ++ t2, r2)
    | (t, .ok (some d)) =>
      match send_media_loop cfg orc user_id rest with
      | (t2, .error u) => (t ++ t2, .error u)
      | (t2, .ok (pv, au)) =>
        match item.media_type with
        | .audio => (t ++ t2, .ok (pv, (d, item.caption) :: au))
        | _ => (t ++ t2, .ok ((d, item.caption) :: pv, au))

/-- `VideoDownloadBot._send_media_items` (bot.py lines 336-379):
processes every item, then sends the photo/video batch as one media
group (when non-empty) and each audio file separately.  The delivered
byte sequences are returned. -/
def send_media_items (cfg : CompressionConfig) (orc : PassOracle)
    (items : List MediaItem) (user_id : Nat) :
    List Event ×
      Except Unit
        (List (List Nat × Option String) × List (List Nat × Option String)) :=
  if items.isEmpty then ([], .ok ([], []))
  else
    match send_media_loop cfg orc user_id items with
    | (t, .error u) => (t, .error u)
    | (t, .ok (pv, au)) =>
      (t ++ (if pv.isEmpty then [] else [Event.replyMediaGroup pv.length])
         ++ au.map (fun _ => Event.replyAudio), .ok (pv, au))

/-- What one fetcher's `download(url)` coroutine produces (downloaders
may return `None`, a raw byte blob, or a list of `DownloadResult`s, or
raise). -/
inductive FetchVal where
  | nothing
  | blob (b : List Nat)
  | items (l : List DownloadResult)
deriving DecidableEq, Repr

/-- `if not download_result:` — Python falsiness of the fetch value. -/
def fetchValFalsy : FetchVal → Bool
  | .nothing => true
  | .blob b => b.isEmpty
  | .items l => l.isEmpty

/-- bot.py lines 312-319: conversion of the fetch value into
`MediaItem`s via `MediaItem.from_bytes` (a bare blob is tagged VIDEO
with no caption). -/
def toMediaItems : FetchVal → List MediaItem
  | .nothing => []
  | .blob b => [MediaItem.from_bytes b .video none]
  | .items l => l.map fun d => MediaItem.from_bytes d.data d.media_type d.caption

/-- A fetcher's observable behaviour for one URL. -/
inductive FetchBehavior where
  | raises
  | val (v : FetchVal)

/-- A registered downloader: its `can_handle` predicate, how long its
`download` call runs (`dur`, in the same seconds unit as
`download_timeout`), and what it produces. -/
structure FetchSpec where
  can_handle : String → Bool
  dur : Nat := 0
  behavior : FetchBehavior := .val .nothing

/-- Terminal outcome of `_handle_download`. -/
inductive HandleOutcome where
  | unsupported
  | timedOut
  | fetchFailed
  | errored
  | completed
      (group : List (List Nat × Option String))
      (audios : List (List Nat × Option String))
deriving DecidableEq, Repr

/-- `VideoDownloadBot._handle_download` (bot.py lines 286-334).
`asyncio.wait_for` wraps **only** `downloader.download(url)` with
`self.config.download_timeout`; media processing afterwards runs
without any deadline.  The third component is the elapsed time of the
request: the timeout aborts the fetch at `download_timeout`, while a
completed request takes the fetch duration plus the processing
duration `procDur`.  Fetcher exceptions map to the generic failure
edit; only cancellation (`.error`) escapes. -/
def handle_download (cfg : Config) (orc : PassOracle)
    (fetchers : List FetchSpec) (url : String) (user_id procDur : Nat) :
    List Event × Except Unit HandleOutcome × Nat :=
  let e0 : List Event := [.sendStatus .queued]
  match fetchers.find? (fun f => f.can_handle url) with
  | none => (e0 ++ [.editStatus .unsupported], .ok .unsupported, 0)
  | some f =>
    if cfg.download_timeout < f.dur then
      (e0 ++ [.editStatus .timedOut], .ok .timedOut, cfg.download_timeout)
    else
      match f.behavior with
      | .raises => (e0 ++ [.editStatus .genericError], .ok .errored, f.dur)
      | .val v =>
        if fetchValFalsy v then
          (e0 ++ [.editStatus .fetchFailed], .ok .fetchFailed, f.dur)
        else
          match send_media_items cfg.compression orc (toMediaItems v)
              user_id with
          | (t, .error u) =>
              (e0 ++ Event.editStatus .processing :: t, .error u,
                f.dur + procDur)
          | (t, .ok (pv, au)) =>
              (e0 ++ Event.editStatus .processing :: t ++ [.deleteStatus],
                .ok (.completed pv au), f.dur + procDur)

/-- `VideoDownloadBot._process_download` (bot.py lines 269-284): the
per-user semaphore is entered first, the global download semaphore
second, `_handle_download` runs inside both, and the `async with`
blocks release in mirrored order on every exit (including
cancellation, which the `except asyncio.CancelledError` re-raises). -/
def process_download (cfg : Config) (orc : PassOracle)
    (fetchers : List FetchSpec) (url : String) (user_id procDur : Nat) :
    List Event × Except Unit HandleOutcome × Nat :=
  match handle_download cfg orc fetchers url user_id procDur with
  | (t, r, el) =>
    (Event.acquireUser user_id :: Event.acquireGlobal :: t
       ++ [Event.releaseGlobal, Event.releaseUser user_id], r, el)

/-- Admission-control (per-user / global download semaphore) events. -/
def Event.isAdmission : Event → Bool
  | .acquireUser _ => true
  | .releaseUser _ => true
  | .acquireGlobal => true
  | .releaseGlobal => true
  | _ => false

/-- The distinct timed-out status message. -/
def Event.isTimeoutMsg : Event → Bool
  | .sendStatus .timedOut => true
  | .editStatus .timedOut => true
  | _ => false

/-- Scratch-directory lifecycle events. -/
def Event.isDirEvent : Event → Bool
  | .createDir _ => true
  | .cleanupDir _ => true
  | _ => false

/-- Transcoder-subprocess events (an ffmpeg/ffprobe invocation or a
compression pass). -/
def Event.isTranscode : Event → Bool
  | .passRun _ => true
  | .probeRun => true
  | .ffmpegInvoke _ => true
  | _ => false

/-- Events that the media-processing phase (`_send_media_items` and
below) can emit.  None of them is an admission-semaphore event or a
timed-out message. -/
def Event.innerOk : Event → Bool
  | .acquireFfmpeg => true
  | .releaseFfmpeg => true
  | .passRun _ => true
  | .probeRun => true
  | .ffmpegInvoke _ => true
  | .createDir _ => true
  | .cleanupDir _ => true
  | .editStatus .tooLarge => true
  | .editStatus (.compressing _) => true
  | .editStatus .compressFailed => true
  | .editStatus .compressionInsufficient => true
  | .editStatus .compressDone => true
  | .replyMediaGroup _ => true
  | .replyAudio => true
  | _ => false

/-- An oracle that never cancels and whose file write succeeds — the
exception-free environment. -/
def PassOracle.NoCancel (orc : PassOracle) : Prop :=
  orc.writeRaises = false ∧ ∀ k i, orc.pass k i ≠ .cancel

/-- An oracle whose passes never shrink their input (the transcoder
"compresses" to an equal or larger file). -/
def PassOracle.Inflating (orc : PassOracle) : Prop :=
  ∀ k i o, orc.pass k i = .out o → i.length ≤ o.length

/-- Scaled-down configuration for concrete runs: with a 0 MB Telegram
limit every non-empty video is over the limit, so multi-pass behaviour
is exercised on inputs of a few bytes (all sizes scale by `2^20`). -/
def cfgTiny : CompressionConfig :=
  { default_compress_threshold_mb := 0
    max_telegram_size_mb := 0
    max_compress_size_mb := 1 }

/-- Like `cfgTiny` but with a 1 MB Telegram limit, so a few-byte video
is over the compression threshold yet within the limit. -/
def cfgFit : CompressionConfig :=
  { default_compress_threshold_mb := 0
    max_telegram_size_mb := 1
    max_compress_size_mb := 1 }

/-- Default configuration with a 0 MB hard processing ceiling. -/
def cfgHardCeil : CompressionConfig := { max_compress_size_mb := 0 }

/-- Oracle for the C1 run: the first pass shrinks a 3-byte video to 2
bytes (still over the 0 MB limit), the second pass shrinks it to 0
bytes (within the limit). -/
def orcTwoPass : PassOracle :=
  { pass := fun k _ =>
      match k with
      | .defaultPass => .fail
      | .firstPass => .out [1, 1]
      | .secondPass => .out [] }

/-- Oracle whose every pass appends one byte — a strictly inflating
transcoder. -/
def orcInflate : PassOracle :=
  { pass := fun _ i => .out (i ++ [0]) }

/-- Oracle whose every pass fails (`None`). -/
def orcFail : PassOracle :=
  { pass := fun _ _ => .fail }

/-- A fetcher that accepts every URL and returns a single photo after
1 time unit. -/
def fetchFastPhoto : FetchSpec :=
  { can_handle := fun _ => true
    dur := 1
    behavior := .val (.items [⟨[5], .photo, none⟩]) }

/-- A fetcher that accepts every URL but needs 91 time units, one more
than the default 90-unit `download_timeout`. -/
def fetchSlow : FetchSpec :=
  { can_handle := fun _ => true
    dur := 91
    behavior := .val (.blob [5]) }

/-- `_compress_video_pass` as invoked by `compress_video` for pass `k`
of configuration `cfg` (profile fields and scratch-file paths as the
source wires them), probing dimensions `w × h`. -/
def passCmdTrace (cfg : CompressionConfig) (k : PassKind)
    (cpu w h : Nat) (run : List String → RunOutcome) :
    List Event × Option (List Nat) :=
  compressVideoPass (cfg.crfOf k) (cfg.scaleOf k) (cfg.presetOf k)
    (cfg.audioOf k) cpu (passInputPath k) (passOutputPath k)
    (.parsedStream w h) run

/-- An ffmpeg run that exits 0 leaving an empty output file. -/
def runDummy : List String → RunOutcome := fun _ => ⟨0, true, []⟩

/-- The configuration shipped in `config.py` (all defaults). -/
def cfgDefault : CompressionConfig := {}

/-! ## Trace-classification lemmas -/

theorem all_append_of {p : Event → Bool} {l1 l2 : List Event}
    (h1 : l1.all p = true) (h2 : l2.all p = true) :
    (l1 ++ l2).all p = true := by
  simp [List.all_append, h1, h2]

theorem all_cons_of {p : Event → Bool} {e : Event} {l : List Event}
    (he : p e = true) (h : l.all p = true) : (e :: l).all p = true := by
  simp [List.all_cons, he, h]

theorem replyAudio_map_all {α : Type} (au : List α) :
    (au.map fun _ => Event.replyAudio).all Event.innerOk = true := by
  induction au with
  | nil => rfl
  | cons a rest ih =>
    simp only [List.map_cons, List.all_cons, Bool.and_eq_true]
    exact ⟨rfl, ih⟩

theorem innerOk_not_admission (e : Event) (h : e.innerOk = true) :
    e.isAdmission = false := by
  cases e <;> first
    | rfl
    | exact Bool.noConfusion h

theorem innerOk_not_timeoutMsg (e : Event) (h : e.innerOk = true) :
    e.isTimeoutMsg = false := by
  cases e <;> first
    | rfl
    | exact Bool.noConfusion h
    | (rename_i m
       cases m <;> first | rfl | exact Bool.noConfusion h)

theorem compress_default_stage_all (orc : PassOracle) (data : List Nat)
    (maxMB : Nat) (p : Event → Bool) (h1 : p .acquireFfmpeg = true)
    (h2 : p .releaseFfmpeg = true) (h3 : ∀ k, p (.passRun k) = true) :
    ((compress_default_stage orc data maxMB).1).all p = true := by
  unfold compress_default_stage
  split
  · rcases h : orc.pass .defaultPass data <;> simp only [h] <;>
      exact all_cons_of h1 (all_cons_of (h3 _) (all_cons_of h2 rfl))
  · rfl

theorem compress_first_stage_all (orc : PassOracle) (data : List Nat)
    (maxMB : Nat) (p : Event → Bool) (h1 : p .acquireFfmpeg = true)
    (h2 : p .releaseFfmpeg = true) (h3 : ∀ k, p (.passRun k) = true) :
    ((compress_first_stage orc data maxMB).1).all p = true := by
  unfold compress_first_stage
  split
  · rcases h : orc.pass .firstPass data with o1 | _ | _
    · simp only [h]
      split
      · rcases h2' : orc.pass .secondPass o1 <;> simp only [h2'] <;>
          exact all_cons_of h1 (all_cons_of (h3 _)
            (all_cons_of (h3 _) (all_cons_of h2 rfl)))
      · exact all_cons_of h1 (all_cons_of (h3 _) (all_cons_of h2 rfl))
    · simp only [h]
      exact all_cons_of h1 (all_cons_of (h3 _) (all_cons_of h2 rfl))
    · simp only [h]
      exact all_cons_of h1 (all_cons_of (h3 _) (all_cons_of h2 rfl))
  · rfl

theorem compress_video_body_all (cfg : CompressionConfig)
    (orc : PassOracle) (data : List Nat) (maxMB : Nat) (force : Bool)
    (p : Event → Bool) (h1 : p .acquireFfmpeg = true)
    (h2 : p .releaseFfmpeg = true) (h3 : ∀ k, p (.passRun k) = true) :
    ((compress_video_body cfg orc data maxMB force).1).all p = true := by
  unfold compress_video_body
  split
  · rfl
  · split
    · rcases hd : compress_default_stage orc data maxMB with ⟨e1, r⟩
      have hall := compress_default_stage_all orc data maxMB p h1 h2 h3
      rw [hd] at hall
      replace hall : e1.all p = true := hall
      rcases r with u | o
      · exact hall
      · rcases o with _ | o
        · rcases hf : compress_first_stage orc data maxMB with ⟨e2, r2⟩
          have hall2 := compress_first_stage_all orc data maxMB p h1 h2 h3
          rw [hf] at hall2
          replace hall2 : e2.all p = true := hall2
          simp only
          exact all_append_of hall hall2
        · exact hall
    · rfl

theorem compress_video_body_inner (cfg : CompressionConfig)
    (orc : PassOracle) (data : List Nat) (maxMB : Nat) (force : Bool) :
    ((compress_video_body cfg orc data maxMB force).1).all Event.innerOk
      = true :=
  compress_video_body_all cfg orc data maxMB force Event.innerOk rfl rfl
    (fun _ => rfl)

theorem compress_video_inner (cfg : CompressionConfig) (orc : PassOracle)
    (data : List Nat) (maxMB user : Nat) (force : Bool) :
    ((compress_video cfg orc data maxMB user force).1).all Event.innerOk
      = true := by
  unfold compress_video
  exact all_cons_of rfl
    (all_append_of (compress_video_body_inner cfg orc data maxMB force) rfl)

theorem process_media_inner (cfg : CompressionConfig) (orc : PassOracle)
    (item : MediaItem) (user : Nat) :
    ((process_media cfg orc item user).1).all Event.innerOk = true := by
  unfold process_media
  rcases item with ⟨data, mt, cap⟩
  cases mt
  · simp only
    split
    · rfl
    · split
      · rcases hc : compress_video cfg orc data cfg.max_telegram_size_mb user
            (mbExceeds data.length cfg.default_compress_threshold_mb) with
          ⟨t, r⟩
        have h1 := compress_video_inner cfg orc data cfg.max_telegram_size_mb
          user (mbExceeds data.length cfg.default_compress_threshold_mb)
        rw [hc] at h1
        replace h1 : t.all Event.innerOk = true := h1
        rcases r with u | cd
        · dsimp only
          simp [List.all_cons, h1, Event.innerOk]
        · dsimp only
          split
          · simp [List.all_cons, List.all_append, h1, Event.innerOk]
          · split
            · simp [List.all_cons, List.all_append, h1, Event.innerOk]
            · split
              · simp [List.all_cons, List.all_append, h1, Event.innerOk]
              · simp [List.all_cons, h1, Event.innerOk]
      · rfl
  · rfl
  · rfl

theorem send_media_loop_inner (cfg : CompressionConfig) (orc : PassOracle)
    (user : Nat) (items : List MediaItem) :
    ((send_media_loop cfg orc user items).1).all Event.innerOk = true := by
  induction items with
  | nil => rfl
  | cons item rest ih =>
    unfold send_media_loop
    rcases hp : process_media cfg orc item user with ⟨t, r⟩
    have h1 := process_media_inner cfg orc item user
    rw [hp] at h1
    rcases hr : send_media_loop cfg orc user rest with ⟨t2, r2⟩
    rw [hr] at ih
    rcases r with u | d
    · simpa using h1
    · rcases d with _ | d
      · simp only
        exact all_append_of h1 ih
      · rcases r2 with u | ⟨pv, au⟩ <;> cases item.media_type <;>
          simp only <;> exact all_append_of h1 ih

theorem send_media_items_inner (cfg : CompressionConfig) (orc : PassOracle)
    (items : List MediaItem) (user : Nat) :
    ((send_media_items cfg orc items user).1).all Event.innerOk = true := by
  unfold send_media_items
  split
  · rfl
  · rcases hr : send_media_loop cfg orc user items with ⟨t, r⟩
    have h1 := send_media_loop_inner cfg orc user items
    rw [hr] at h1
    rcases r with u | ⟨pv, au⟩
    · simpa using h1
    · simp only
      refine all_append_of (all_append_of h1 ?_) (replyAudio_map_all au)
      split <;> rfl

theorem all_weaken {p q : Event → Bool}
    (himp : ∀ e, p e = true → q e = true) {l : List Event}
    (hl : l.all p = true) : l.all q = true := by
  rw [List.all_eq_true] at hl ⊢
  exact fun e he => himp e (hl e he)

theorem send_media_items_no_admission (cfg : CompressionConfig)
    (orc : PassOracle) (items : List MediaItem) (user : Nat) :
    ((send_media_items cfg orc items user).1).all
      (fun e => !e.isAdmission) = true :=
  all_weaken
    (fun e he => by rw [innerOk_not_admission e he]; rfl)
    (send_media_items_inner cfg orc items user)

theorem send_media_items_no_timeoutMsg (cfg : CompressionConfig)
    (orc : PassOracle) (items : List MediaItem) (user : Nat) :
    ((send_media_items cfg orc items user).1).all
      (fun e => !e.isTimeoutMsg) = true :=
  all_weaken
    (fun e he => by rw [innerOk_not_timeoutMsg e he]; rfl)
    (send_media_items_inner cfg orc items user)

theorem handle_download_no_admission (cfg : Config) (orc : PassOracle)
    (fetchers : List FetchSpec) (url : String) (user procDur : Nat) :
    ((handle_download cfg orc fetchers url user procDur).1).all
      (fun e => !e.isAdmission) = true := by
  unfold handle_download
  rcases hfind : fetchers.find? (fun f => f.can_handle url) with _ | f <;>
    rw [hfind]
  · rfl
  · dsimp only
    split
    · rfl
    · rcases hb : f.behavior with _ | v
      · rfl
      · dsimp only
        split
        · rfl
        · rcases hs : send_media_items cfg.compression orc (toMediaItems v)
              user with ⟨t, r⟩
          have h1 := send_media_items_no_admission cfg.compression orc
            (toMediaItems v) user
          rw [hs] at h1
          replace h1 : t.all (fun e => !e.isAdmission) = true := h1
          rcases r with u | ⟨pv, au⟩
          · exact all_cons_of rfl (all_cons_of rfl h1)
          · exact all_cons_of rfl (all_cons_of rfl (all_append_of h1 rfl))

theorem handle_download_timely (cfg : Config) (orc : PassOracle)
    (fetchers : List FetchSpec) (url : String) (user procDur : Nat)
    (f : FetchSpec)
    (hf : fetchers.find? (fun g => g.can_handle url) = some f)
    (hd : f.dur ≤ cfg.download_timeout) :
    ((handle_download cfg orc fetchers url user procDur).1).all
      (fun e => !e.isTimeoutMsg) = true ∧
    (handle_download cfg orc fetchers url user procDur).2.1
      ≠ Except.ok HandleOutcome.timedOut := by
  unfold handle_download
  rw [hf]
  dsimp only
  rw [if_neg (Nat.not_lt.mpr hd)]
  rcases hb : f.behavior with _ | v
  · exact ⟨rfl, by simp⟩
  · dsimp only
    split
    · exact ⟨rfl, by simp⟩
    · rcases hs : send_media_items cfg.compression orc (toMediaItems v)
          user with ⟨t, r⟩
      have h1 := send_media_items_no_timeoutMsg cfg.compression orc
        (toMediaItems v) user
      rw [hs] at h1
      replace h1 : t.all (fun e => !e.isTimeoutMsg) = true := h1
      rcases r with u | ⟨pv, au⟩
      · exact ⟨all_cons_of rfl (all_cons_of rfl h1), by simp⟩
      · exact ⟨all_cons_of rfl (all_cons_of rfl (all_append_of h1 rfl)),
          by simp⟩

theorem compress_default_stage_inflating (orc : PassOracle)
    (data : List Nat) (maxMB : Nat) (hnc : orc.NoCancel)
    (hinf : orc.Inflating) :
    (compress_default_stage orc data maxMB).2 = Except.ok none := by
  unfold compress_default_stage
  split
  · rcases h : orc.pass .defaultPass data with o | _ | _
    · dsimp only
      have hlen := hinf .defaultPass data o h
      rw [if_neg]
      intro hc
      exact absurd hc.1 (by omega)
    · rfl
    · exact absurd h (hnc.2 _ _)
  · rfl

theorem compress_first_stage_nocancel (orc : PassOracle) (data : List Nat)
    (maxMB : Nat) (hnc : orc.NoCancel) :
    (compress_first_stage orc data maxMB).2 = Except.ok data := by
  unfold compress_first_stage
  split
  · rcases h : orc.pass .firstPass data with o1 | _ | _
    · dsimp only
      split
      · rcases h2 : orc.pass .secondPass o1 with o2 | _ | _
        · rfl
        · rfl
        · exact absurd h2 (hnc.2 _ _)
      · rfl
    · rfl
    · exact absurd h (hnc.2 _ _)
  · rfl

theorem compress_video_body_inflating (cfg : CompressionConfig)
    (orc : PassOracle) (data : List Nat) (maxMB : Nat) (force : Bool)
    (hnc : orc.NoCancel) (hinf : orc.Inflating) :
    (compress_video_body cfg orc data maxMB force).2 = Except.ok data := by
  unfold compress_video_body
  split
  · rename_i hw
    rw [hnc.1] at hw
    exact Bool.noConfusion hw
  · split
    · rcases hd : compress_default_stage orc data maxMB with ⟨e1, r⟩
      have h1 := compress_default_stage_inflating orc data maxMB hnc hinf
      rw [hd] at h1
      replace h1 : r = Except.ok none := h1
      subst h1
      dsimp only
      rcases hf : compress_first_stage orc data maxMB with ⟨e2, r2⟩
      have h2 := compress_first_stage_nocancel orc data maxMB hnc
      rw [hf] at h2
      replace h2 : r2 = Except.ok data := h2
      subst h2
      rfl
    · rfl

theorem compress_video_inflating (cfg : CompressionConfig)
    (orc : PassOracle) (data : List Nat) (maxMB user : Nat) (force : Bool)
    (hnc : orc.NoCancel) (hinf : orc.Inflating) :
    (compress_video cfg orc data maxMB user force).2 = Except.ok data := by
  unfold compress_video
  dsimp only
  exact compress_video_body_inflating cfg orc data maxMB force hnc hinf

/-! ## Claim theorems -/

/-- C1.  The claim says the bytes finally returned by `compress_video`
for an over-limit video whose first pass is insufficient are the
second-pass output.  The code violates this: both passes run, but
control falls through to line 131's `return video_data`, so the
original bytes come back and `_process_media` then drops the item as
still oversized.  Scaled failing input (sizes in the model scale by
`2^20`): a 3-byte video with a 0 MB Telegram limit; the first pass
yields 2 bytes (still over), the second pass yields 0 bytes (under);
the function returns the original 3 bytes and the item is dropped. -/
theorem c1_compress_video_discards_pass_output :
    orcTwoPass.pass .firstPass [0, 0, 0] = .out [1, 1] ∧
    orcTwoPass.pass .secondPass [1, 1] = .out [] ∧
    mbExceeds [1, 1].length cfgTiny.max_telegram_size_mb = true ∧
    mbExceeds ([] : List Nat).length cfgTiny.max_telegram_size_mb
      = false ∧
    Event.passRun .secondPass
      ∈ (compress_video cfgTiny orcTwoPass [0, 0, 0]
          cfgTiny.max_telegram_size_mb 7 true).1 ∧
    (compress_video cfgTiny orcTwoPass [0, 0, 0]
        cfgTiny.max_telegram_size_mb 7 true).2 = Except.ok [0, 0, 0] ∧
    (process_media cfgTiny orcTwoPass ⟨[0, 0, 0], .video, none⟩ 7).2
      = Except.ok none :=
  ⟨rfl, rfl, rfl, rfl, by decide, rfl, rfl⟩

/-- C2 (counterexample).  The claim says any input whose long edge
exceeds `profile.scale` gets the downscale filter.  A portrait
720×1920 input to the first pass (scale 1080) has long edge 1920 >
1080, yet the code compares only the width (720 ≤ 1080) and emits no
`-vf` argument at all. -/
theorem c2_counterexample_portrait_not_scaled :
    cfgDefault.scaleOf .firstPass < max 720 1920 ∧
    (invokedCmds (passCmdTrace cfgDefault .firstPass 4 720 1920
        runDummy).1).length = 1 ∧
    (invokedCmds (passCmdTrace cfgDefault .firstPass 4 720 1920
        runDummy).1).all (fun c => !(c.contains "-vf")) = true := by
  refine ⟨by decide, rfl, by decide⟩

/-- C2 (amended).  The scale decision of `_compress_video_pass` uses
the probed *width* only: when both probed dimensions are non-zero and
the width is at most `profile.scale`, the command contains no scaling
filter; otherwise (width above scale, or a zero/missing dimension) it
contains exactly the filter `scale=<profile.scale>:-2:flags=lanczos`.
Stated for the three shipped profiles of `config.py`, over all probed
dimensions and host core counts. -/
theorem c2_scale_decision_uses_width_only (w h cpu : Nat) (k : PassKind)
    (run : List String → RunOutcome) :
    ∃ cmd, (passCmdTrace cfgDefault k cpu w h run).1
        = [Event.probeRun, Event.ffmpegInvoke cmd] ∧
      (("-vf" ∈ cmd) ↔ ¬(0 < w ∧ 0 < h ∧ w ≤ cfgDefault.scaleOf k)) ∧
      ((scaleFilter (cfgDefault.scaleOf k) ∈ cmd)
        ↔ ¬(0 < w ∧ 0 < h ∧ w ≤ cfgDefault.scaleOf k)) := by
  have htc1 : 1 ≤ threadCountOf cpu := le_max_left 1 _
  have htc8 : threadCountOf cpu ≤ 8 :=
    max_le (by norm_num) (min_le_right _ _)
  unfold passCmdTrace compressVideoPass shouldScaleAfterProbe
  dsimp only
  by_cases hcond : 0 < w ∧ 0 < h ∧ w ≤ cfgDefault.scaleOf k
  · rw [if_pos hcond]
    refine ⟨_, rfl, ?_, ?_⟩ <;>
      simp only [hcond, not_true_eq_false, iff_false] <;>
      cases k <;>
      (generalize hg : threadCountOf cpu = tc at htc1 htc8) <;>
      interval_cases tc <;> decide
  · rw [if_neg hcond]
    refine ⟨_, rfl, ?_, ?_⟩ <;>
      simp only [hcond, not_false_eq_true, iff_true] <;>
      cases k <;>
      (generalize hg : threadCountOf cpu = tc at htc1 htc8) <;>
      interval_cases tc <;> decide

/-- C3 (counterexample).  The claim says that for a URL no fetcher can
handle, neither the per-user nor the global semaphore is ever
acquired.  With no registered fetchers (so nothing can handle the
URL), the trace of `_process_download` nevertheless contains both
acquisitions before the `UnsupportedSource` edit. -/
theorem c3_counterexample_semaphores_acquired :
    (([] : List FetchSpec).all
      (fun f => !f.can_handle "https://example.com/x")) = true ∧
    Event.acquireUser 1
      ∈ (process_download {} orcFail [] "https://example.com/x" 1 0).1 ∧
    Event.acquireGlobal
      ∈ (process_download {} orcFail [] "https://example.com/x" 1 0).1 ∧
    Event.editStatus .unsupported
      ∈ (process_download {} orcFail [] "https://example.com/x" 1 0).1 :=
  ⟨rfl, by decide, by decide, by decide⟩

/-- C3 (amended).  When no registered fetcher's `can_handle` matches
the URL, the user receives the `UnsupportedSource` message, but both
admission semaphores ARE acquired first (per-user, then global) and
released afterwards in mirrored order; no fetch or processing
happens in between. -/
theorem c3_unsupported_source_message_inside_semaphores (cfg : Config)
    (orc : PassOracle) (fetchers : List FetchSpec) (url : String)
    (user procDur : Nat)
    (h : ∀ f ∈ fetchers, f.can_handle url = false) :
    process_download cfg orc fetchers url user procDur
      = ([Event.acquireUser user, Event.acquireGlobal,
          Event.sendStatus .queued, Event.editStatus .unsupported,
          Event.releaseGlobal, Event.releaseUser user],
         Except.ok HandleOutcome.unsupported, 0) := by
  have hfind : fetchers.find? (fun f => f.can_handle url) = none :=
    List.find?_eq_none.mpr (fun f hf => by simp [h f hf])
  unfold process_download handle_download
  rw [hfind]
  rfl

/-- Witness for C3: the amended claim at a concrete input. -/
theorem c3_witness :
    process_download {} orcFail [] "https://example.com/x" 1 0
      = ([Event.acquireUser 1, Event.acquireGlobal,
          Event.sendStatus .queued, Event.editStatus .unsupported,
          Event.releaseGlobal, Event.releaseUser 1],
         Except.ok HandleOutcome.unsupported, 0) :=
  c3_unsupported_source_message_inside_semaphores {} orcFail []
    "https://example.com/x" 1 0
    (fun f hf => absurd hf (List.not_mem_nil f))

/-- C4 (counterexample).  The claim says `download_timeout` bounds the
combined fetch-and-process pipeline.  With the default 90-unit
timeout, a fetch taking 1 unit followed by processing taking 1000
units (total 1001 > 90) still completes and delivers — no timed-out
message appears anywhere in the trace, because `asyncio.wait_for`
wraps only the fetch. -/
theorem c4_counterexample_processing_unbounded :
    ({} : Config).download_timeout < 1 + 1000 ∧
    (handle_download {} orcFail [fetchFastPhoto] "u" 1 1000).2.2
      = 1 + 1000 ∧
    (handle_download {} orcFail [fetchFastPhoto] "u" 1 1000).2.1
      = Except.ok (HandleOutcome.completed [([5], none)] []) ∧
    ((handle_download {} orcFail [fetchFastPhoto] "u" 1 1000).1).all
      (fun e => !e.isTimeoutMsg) = true :=
  ⟨by decide, rfl, rfl, by decide⟩

/-- C4 (amended).  `download_timeout` bounds only the fetch step: when
the matched fetcher's download exceeds it, the operation is abandoned
with the distinct `TimedOut` message (and nothing is delivered); when
the fetch completes within the deadline, no timed-out message can
appear regardless of how long media processing takes. -/
theorem c4_timeout_bounds_fetch_only (cfg : Config) (orc : PassOracle)
    (fetchers : List FetchSpec) (url : String) (user procDur : Nat)
    (f : FetchSpec)
    (hf : fetchers.find? (fun g => g.can_handle url) = some f) :
    (cfg.download_timeout < f.dur →
       handle_download cfg orc fetchers url user procDur
         = ([Event.sendStatus .queued, Event.editStatus .timedOut],
            Except.ok HandleOutcome.timedOut, cfg.download_timeout)) ∧
    (f.dur ≤ cfg.download_timeout →
       ((handle_download cfg orc fetchers url user procDur).1).all
           (fun e => !e.isTimeoutMsg) = true ∧
       (handle_download cfg orc fetchers url user procDur).2.1
         ≠ Except.ok HandleOutcome.timedOut) := by
  constructor
  · intro hlt
    unfold handle_download
    rw [hf]
    dsimp only
    rw [if_pos hlt]
    rfl
  · intro hle
    exact handle_download_timely cfg orc fetchers url user procDur f hf hle

/-- Witness for C4: a fetcher one unit over the default deadline is
reported as timed out. -/
theorem c4_witness :
    handle_download {} orcFail [fetchSlow] "u" 3 5
      = ([Event.sendStatus .queued, Event.editStatus .timedOut],
         Except.ok HandleOutcome.timedOut, ({} : Config).download_timeout) :=
  (c4_timeout_bounds_fetch_only {} orcFail [fetchSlow] "u" 3 5 fetchSlow
    rfl).1 (by decide)

/-- C5 (counterexample).  The claim says that whenever the transcoder
inflates, the original pre-pass bytes are "kept and delivered
unchanged".  For a video already over the Telegram limit (scaled
model: 3 bytes against a 0 MB limit) whose passes inflate, nothing is
delivered at all: the policy drops the item with
`CompressionInsufficient` instead of delivering the original. -/
theorem c5_counterexample_over_limit_item_dropped :
    orcInflate.pass .firstPass [0, 0, 0] = .out [0, 0, 0, 0] ∧
    ([0, 0, 0] : List Nat).length < ([0, 0, 0, 0] : List Nat).length ∧
    (process_media cfgTiny orcInflate ⟨[0, 0, 0], .video, none⟩ 2).2
      = Except.ok none ∧
    (Except.ok none : Except Unit (Option (List Nat)))
      ≠ Except.ok (some [0, 0, 0]) :=
  ⟨rfl, by decide, rfl, by simp⟩

/-- C5 (amended).  When every attempted pass's output is not strictly
smaller than its input (an inflating transcoder) and the pipeline is
not cancelled: a video within the Telegram limit (and the hard
ceiling) has its original bytes delivered unchanged; a video over the
Telegram limit is dropped (`CompressionInsufficient`) rather than
delivered; and in every case the only bytes that can be delivered are
the original ones — an inflated output is never delivered. -/
theorem c5_inflating_transcoder_keeps_original (cfg : CompressionConfig)
    (orc : PassOracle) (item : MediaItem) (user : Nat)
    (hv : item.media_type = .video) (hnc : orc.NoCancel)
    (hinf : orc.Inflating) :
    (mbExceeds item.data.length cfg.max_telegram_size_mb = false →
       mbExceeds item.data.length cfg.max_compress_size_mb = false →
       (process_media cfg orc item user).2 = Except.ok (some item.data)) ∧
    (mbExceeds item.data.length cfg.max_telegram_size_mb = true →
       mbExceeds item.data.length cfg.max_compress_size_mb = false →
       (process_media cfg orc item user).2 = Except.ok none) ∧
    (∀ d, (process_media cfg orc item user).2 = Except.ok (some d) →
       d = item.data) := by
  rcases item with ⟨data, mt, cap⟩
  dsimp only at hv
  subst hv
  unfold process_media
  dsimp only
  rcases hcv : compress_video cfg orc data cfg.max_telegram_size_mb user
      (mbExceeds data.length cfg.default_compress_threshold_mb) with ⟨t, r⟩
  have hr := compress_video_inflating cfg orc data cfg.max_telegram_size_mb
    user (mbExceeds data.length cfg.default_compress_threshold_mb) hnc hinf
  rw [hcv] at hr
  replace hr : r = Except.ok data := hr
  subst hr
  refine ⟨?_, ?_, ?_⟩
  · intro htel hcomp
    rw [if_neg (by simp [hcomp])]
    cases hth : mbExceeds data.length cfg.default_compress_threshold_mb with
    | false =>
      rw [if_neg (by simp [hth, htel])]
    | true =>
      rw [if_pos (by simp [hth])]
      dsimp only
      have hpos : 0 < data.length := by
        simp only [mbExceeds, decide_eq_true_eq] at hth
        omega
      have hne : data.isEmpty = false := by
        cases data
        · simp at hpos
        · rfl
      rw [if_neg (by simp [hne])]
      rw [if_neg (by simp [htel])]
      rw [if_neg (Nat.lt_irrefl _)]
  · intro htel hcomp
    rw [if_neg (by simp [hcomp])]
    rw [if_pos (by simp [htel])]
    dsimp only
    have hpos : 0 < data.length := by
      simp only [mbExceeds, decide_eq_true_eq] at htel
      omega
    have hne : data.isEmpty = false := by
      cases data
      · simp at hpos
      · rfl
    rw [if_neg (by simp [hne])]
    rw [if_pos htel]
  · intro d hd
    by_cases h1 : mbExceeds data.length cfg.max_compress_size_mb = true
    · rw [if_pos h1] at hd
      simp at hd
    · rw [if_neg h1] at hd
      by_cases h2 : (mbExceeds data.length cfg.default_compress_threshold_mb
          || mbExceeds data.length cfg.max_telegram_size_mb) = true
      · rw [if_pos h2] at hd
        dsimp only at hd
        by_cases h3 : data.isEmpty = true
        · rw [if_pos h3] at hd
          simp at hd
        · rw [if_neg h3] at hd
          by_cases h4 : mbExceeds data.length cfg.max_telegram_size_mb = true
          · rw [if_pos h4] at hd
            simp at hd
          · rw [if_neg h4] at hd
            rw [if_neg (Nat.lt_irrefl _)] at hd
            simp at hd
            exact hd.symm
      · rw [if_neg h2] at hd
        simp at hd
        exact hd.symm

/-- Witness for C5: a 3-byte video over the (zeroed) compression
threshold but within a 1 MB Telegram limit, against the inflating
transcoder, is delivered unchanged. -/
theorem c5_witness :
    (process_media cfgFit orcInflate ⟨[9, 9, 9], .video, none⟩ 2).2
      = Except.ok (some [9, 9, 9]) :=
  (c5_inflating_transcoder_keeps_original cfgFit orcInflate
      ⟨[9, 9, 9], .video, none⟩ 2 rfl
      ⟨rfl, fun k i => by simp [orcInflate]⟩
      (fun k i o ho => by
        simp only [orcInflate] at ho
        injection ho with h
        subst h
        simp)).1 rfl rfl

/-- C6.  A video strictly over `max_compress_size_mb` is rejected with
the too-large message: `_process_media` returns nothing, its trace is
exactly the one status edit (in particular no transcoder event), and
sending a batch containing only this item delivers nothing. -/
theorem c6_hard_ceiling_rejects_without_transcoding
    (cfg : CompressionConfig) (orc : PassOracle) (item : MediaItem)
    (user : Nat) (hv : item.media_type = .video)
    (hbig : mbExceeds item.data.length cfg.max_compress_size_mb = true) :
    process_media cfg orc item user
      = ([Event.editStatus .tooLarge], Except.ok none) ∧
    ((process_media cfg orc item user).1).all
      (fun e => !e.isTranscode) = true ∧
    send_media_items cfg orc [item] user
      = ([Event.editStatus .tooLarge], Except.ok ([], [])) := by
  rcases item with ⟨data, mt, cap⟩
  dsimp only at hv hbig
  subst hv
  have hmain : process_media cfg orc ⟨data, MediaType.video, cap⟩ user
      = ([Event.editStatus .tooLarge], Except.ok none) := by
    unfold process_media
    dsimp only
    rw [if_pos hbig]
  refine ⟨hmain, ?_, ?_⟩
  · rw [hmain]
    rfl
  · unfold send_media_items send_media_loop
    rw [hmain]
    rfl

/-- Witness for C6: a 1-byte video against a 0 MB hard ceiling. -/
theorem c6_witness :
    process_media cfgHardCeil orcFail ⟨[7], .video, none⟩ 3
      = ([Event.editStatus .tooLarge], Except.ok none) :=
  (c6_hard_ceiling_rejects_without_transcoding cfgHardCeil orcFail
    ⟨[7], .video, none⟩ 3 rfl rfl).1

/-- C7.  `compress_video` creates its scratch directory first and the
`finally` block removes it on every exit path (normal return, the
default-pass early return, write failure, or cancellation raised at
any await): the trace is always bracketed by exactly
`createDir`/`cleanupDir`, with no directory event in between.  And
`cleanup_user_temp_dir` never raises, whatever the filesystem does. -/
theorem c7_scratch_dir_bracketing_and_cleanup_never_raises :
    (∀ (cfg : CompressionConfig) (orc : PassOracle) (data : List Nat)
        (maxMB user : Nat) (force : Bool),
       ∃ mid, (compress_video cfg orc data maxMB user force).1
           = Event.createDir user :: (mid ++ [Event.cleanupDir user]) ∧
         mid.all (fun e => !e.isDirEvent) = true) ∧
    (∀ (dirExists : Bool) (rmtreeResult : Except String Unit),
       cleanup_user_temp_dir dirExists rmtreeResult = Except.ok ()) := by
  constructor
  · intro cfg orc data maxMB user force
    refine ⟨(compress_video_body cfg orc data maxMB force).1, rfl, ?_⟩
    exact compress_video_body_all cfg orc data maxMB force
      (fun e => !e.isDirEvent) rfl rfl (fun _ => rfl)
  · intro dirExists rmtreeResult
    cases dirExists <;> cases rmtreeResult <;> rfl

/-- C8.  For every admitted request, `_process_download` acquires the
per-user semaphore first and the global download semaphore second,
runs the whole `_handle_download` body between the acquisitions and
the releases (the body itself performs no admission-semaphore
operation), and releases in mirrored order (global, then user) on
every outcome including cancellation. -/
theorem c8_user_then_global_held_for_whole_request (cfg : Config)
    (orc : PassOracle) (fetchers : List FetchSpec) (url : String)
    (user procDur : Nat) :
    (process_download cfg orc fetchers url user procDur).1
      = Event.acquireUser user :: Event.acquireGlobal ::
          ((handle_download cfg orc fetchers url user procDur).1
            ++ [Event.releaseGlobal, Event.releaseUser user]) ∧
    ((handle_download cfg orc fetchers url user procDur).1).all
      (fun e => !e.isAdmission) = true :=
  ⟨rfl, handle_download_no_admission cfg orc fetchers url user procDur⟩

/-- C9.  A video at most the compression threshold and at most the
Telegram limit (under the standing configuration constraint that the
hard ceiling is at least the Telegram limit) passes through the
Media Adaptation Policy untouched: no status edit, no compression,
the original bytes are returned; re-running the policy on the
returned bytes gives the same bytes again (idempotence). -/
theorem c9_small_video_passthrough_idempotent (cfg : CompressionConfig)
    (orc : PassOracle) (item : MediaItem) (user : Nat)
    (hv : item.media_type = .video)
    (hth : mbExceeds item.data.length cfg.default_compress_threshold_mb
      = false)
    (htel : mbExceeds item.data.length cfg.max_telegram_size_mb = false)
    (hord : cfg.max_telegram_size_mb ≤ cfg.max_compress_size_mb) :
    process_media cfg orc item user = ([], Except.ok (some item.data)) ∧
    process_media cfg orc
        (MediaItem.from_bytes item.data .video item.caption) user
      = ([], Except.ok (some item.data)) := by
  rcases item with ⟨data, mt, cap⟩
  dsimp only at hv hth htel
  subst hv
  have hcomp : mbExceeds data.length cfg.max_compress_size_mb = false := by
    simp only [mbExceeds, decide_eq_false_iff_not, Nat.not_lt] at htel ⊢
    omega
  unfold process_media
  dsimp only [MediaItem.from_bytes]
  rw [if_neg (by simp [hcomp])]
  rw [if_neg (by simp [hth, htel])]
  exact ⟨rfl, rfl⟩

/-- Witness for C9: a 3-byte video under the default configuration. -/
theorem c9_witness :
    process_media cfgDefault orcFail ⟨[1, 2, 3], .video, none⟩ 4
      = ([], Except.ok (some [1, 2, 3])) :=
  (c9_small_video_passthrough_idempotent cfgDefault orcFail
    ⟨[1, 2, 3], .video, none⟩ 4 rfl rfl rfl (by decide)).1

/-- C10.  When the dimension probe parses but contains no non-empty
`streams` entry, `should_scale` is never assigned
(`shouldScaleAfterProbe` yields `none`), the resulting
`UnboundLocalError` is caught by the pass's outer handler, and
`_compress_video_pass` returns `None` — the `TranscodeFailed`
signal — without ever invoking ffmpeg. -/
theorem c10_missing_streams_pass_fails_without_ffmpeg (crf scale : Nat)
    (preset : String) (audio_bitrate cpu : Nat) (inP outP : String)
    (run : List String → RunOutcome) :
    shouldScaleAfterProbe scale .parsedNoStreams = none ∧
    compressVideoPass crf scale preset audio_bitrate cpu inP outP
        .parsedNoStreams run = ([Event.probeRun], none) :=
  ⟨rfl, rfl⟩
